import Mathlib

/-!
Verification development for the entity linker
(`src/entity_linking/entity_linker.py`): a shallow embedding of the
`Entity_Linker` class and proofs about its label-fallback, match
detection, tagger accumulation and error-handling behaviour.

The Solr index is modelled as an oracle: a function from the request
data that the code sends (query string and row cap for the select
endpoint, tagger name and text for the tagger endpoint) to either a
list of returned records or a transport/decode error.  Python
exceptions are modelled with `Except` / explicit error components:
`KeyError` (missing dict key), `IndexError` (`[0]` on an empty list),
`AttributeError` (`None.encode` when `text` is absent on the tagger
path) and transport or JSON-decode errors of the `requests` calls.
-/

/-- Errors the linker code can raise.  `keyError` and `indexError`
correspond to Python's `LookupError` subclasses; `attributeError` is
raised by `text.encode` when `text` is `None`; `transportError` stands
for any exception out of `requests.get`/`requests.post`/`r.json()`. -/
inductive LinkErr where
  | keyError (field : String)
  | indexError
  | attributeError
  | transportError (msg : String)
deriving DecidableEq

/-- Lookup errors (Python `KeyError` and `IndexError` are both
subclasses of `LookupError`). -/
def LinkErr.isLookup : LinkErr → Bool
  | .keyError _ => true
  | .indexError => true
  | _ => false

/-- A Solr field value as consumed by the linker: a single scalar
(modelled by its string form, which is what the code compares after
`str(value)`) or a multi-valued list of strings. -/
inductive FieldValue where
  | scalar (v : String)
  | multi (vs : List String)
deriving DecidableEq

/-- Python's listification in the match scan: `values = search_result[field];
if not isinstance(values, list): values = [values]`. -/
def valuesOf : FieldValue → List String
  | .scalar v => [v]
  | .multi vs => vs

/-- An entity record returned by the Solr index.  The thirteen fixed
projection fields of `Entity_Linker.fields` appear as optional typed
fields (`id`, `score` and the `_s` field are scalar strings; `_ss` and
`_txt` fields are multi-valued), and `others` holds any further fields
(e.g. caller-requested additional result fields).  Mirroring a JSON
object binding each key at most once, `others` is assumed to use only
names outside the thirteen fixed ones; `recordGet?` makes the fixed
names shadow `others`. -/
structure EntityRecord where
  id : Option String
  score : Option String
  type_ss : Option (List String)
  label_ss : Option (List String)
  label_txt : Option (List String)
  preferred_label_s : Option String
  preferred_label_txt : Option (List String)
  skos_prefLabel_ss : Option (List String)
  skos_prefLabel_txt : Option (List String)
  skos_altLabel_ss : Option (List String)
  skos_altLabel_txt : Option (List String)
  skos_hiddenLabel_ss : Option (List String)
  skos_hiddenLabel_txt : Option (List String)
  others : List (String × FieldValue)
deriving DecidableEq

/-- The record with every field absent; concrete records are written
as updates of it. -/
def emptyRecord : EntityRecord :=
  ⟨none, none, none, none, none, none, none, none, none, none, none, none, none, []⟩

/-- Dictionary lookup `search_result[field]` / membership test
`field in search_result`, returning `none` when the key is absent. -/
def recordGet? (doc : EntityRecord) (field : String) : Option FieldValue :=
  if field = "id" then doc.id.map .scalar
  else if field = "score" then doc.score.map .scalar
  else if field = "type_ss" then doc.type_ss.map .multi
  else if field = "label_ss" then doc.label_ss.map .multi
  else if field = "label_txt" then doc.label_txt.map .multi
  else if field = "preferred_label_s" then doc.preferred_label_s.map .scalar
  else if field = "preferred_label_txt" then doc.preferred_label_txt.map .multi
  else if field = "skos_prefLabel_ss" then doc.skos_prefLabel_ss.map .multi
  else if field = "skos_prefLabel_txt" then doc.skos_prefLabel_txt.map .multi
  else if field = "skos_altLabel_ss" then doc.skos_altLabel_ss.map .multi
  else if field = "skos_altLabel_txt" then doc.skos_altLabel_txt.map .multi
  else if field = "skos_hiddenLabel_ss" then doc.skos_hiddenLabel_ss.map .multi
  else if field = "skos_hiddenLabel_txt" then doc.skos_hiddenLabel_txt.map .multi
  else (doc.others.find? (fun p => p.1 = field)).map (fun p => p.2)

/-- A normalized output entity (`result` dict of the source);
`is_match` embeds the source's `match` key, `score` is present only on
the query path, `extra` holds the copied additional result fields of
the dictionary path. -/
structure ResolvedEntity where
  id : String
  name : String
  score : Option String
  is_match : Bool
  type : List String
  extra : List (String × FieldValue)
deriving DecidableEq

/-- One entry of a query map: `{query: ..., limit?: ...}`. -/
structure Query where
  query : String
  limit : Option Nat
deriving DecidableEq

/-- The result map (`normalized_entities`): a Python dict from key to
`{result: [...]}`, embedded as an association list with dict-update
semantics (`insertA`). -/
abbrev ResultMap : Type := List (String × List ResolvedEntity)

/-- Python dict update `m[k] = v`: replace the entry for `k` in place
if present, else append. -/
def insertA : ResultMap → String → List ResolvedEntity → ResultMap
  | [], k, v => [(k, v)]
  | p :: rest, k, v => if p.1 = k then (k, v) :: rest else p :: insertA rest k v

/-- Python dict read `m[k]`, as an `Option`. -/
def lookupA (m : ResultMap) (k : String) : Option (List ResolvedEntity) :=
  (m.find? (fun p => p.1 = k)).map (fun p => p.2)

theorem lookupA_nil (k : String) : lookupA [] k = none := rfl

theorem lookupA_insertA (m : ResultMap) (k : String) (v : List ResolvedEntity)
    (k' : String) :
    lookupA (insertA m k v) k' = if k' = k then some v else lookupA m k' := by
  induction m with
  | nil =>
    by_cases h : k' = k
    · simp [insertA, lookupA, List.find?, h]
    · have h2 : ¬ k = k' := fun hh => h hh.symm
      simp [insertA, lookupA, List.find?, h, h2]
  | cons p rest ih =>
    by_cases hpk : p.1 = k
    · by_cases h : k' = k
      · simp [insertA, lookupA, List.find?, hpk, h]
      · have h2 : ¬ k = k' := fun hh => h hh.symm
        have h3 : ¬ p.1 = k' := fun hh => h2 (by rw [← hpk, hh])
        simp [insertA, lookupA, List.find?, hpk, h, h2, h3]
    · simp only [insertA, if_neg hpk]
      by_cases hp : p.1 = k'
      · have h : ¬ k' = k := fun hh => hpk (by rw [hp, hh])
        simp [lookupA, List.find?, hp, h]
      · have hskip : lookupA (p :: insertA rest k v) k' = lookupA (insertA rest k v) k' := by
          simp [lookupA, List.find?, hp]
        rw [hskip, ih]
        by_cases h : k' = k
        · simp [h]
        · simp [h, lookupA, List.find?, hp]

/-- Membership in an updated map: an entry is the new one or an old one. -/
theorem mem_insertA (m : ResultMap) (k : String) (v : List ResolvedEntity)
    (p : String × List ResolvedEntity) (hp : p ∈ insertA m k v) :
    p.2 = v ∨ p ∈ m := by
  induction m with
  | nil =>
    simp [insertA] at hp
    exact Or.inl (by rw [hp])
  | cons q rest ih =>
    by_cases hq : q.1 = k
    · simp only [insertA, if_pos hq, List.mem_cons] at hp
      rcases hp with hp | hp
      · exact Or.inl (by rw [hp])
      · exact Or.inr (List.mem_cons_of_mem q hp)
    · simp only [insertA, if_neg hq, List.mem_cons] at hp
      rcases hp with hp | hp
      · exact Or.inr (by simp [hp])
      · rcases ih hp with h | h
        · exact Or.inl h
        · exact Or.inr (List.mem_cons_of_mem q h)

/-- Python truthiness of the running `label` variable: falsy when it is
`None` or the empty string. -/
def pyFalsy : Option String → Bool
  | none => true
  | some s => s == ""

/-- One step of the label fallback, embedding

    if not label:
        if FIELD in search_result:
            label = search_result[FIELD][0]

where `FIELD` is one of the multi-valued label fields; `[0]` on a
present but empty list raises `IndexError`. -/
def label_step (label : Option String) (field : Option (List String)) :
    Except LinkErr (Option String) :=
  if pyFalsy label then
    match field with
    | none => .ok label
    | some [] => .error .indexError
    | some (x :: _) => .ok (some x)
  else .ok label

/-- The label fallback shared verbatim by `query_entities` (lines
89-107) and `dictionary_matcher` (lines 180-198): start from
`preferred_label_s` (or `None` when absent), then step through
`skos_prefLabel_ss`, `label_ss`, `skos_altLabel_ss`, finally fall back
to `search_result['id']` (a `KeyError` when `id` is absent) if the
running label is still falsy. -/
def pick_label (doc : EntityRecord) : Except LinkErr String :=
  match label_step doc.preferred_label_s doc.skos_prefLabel_ss with
  | .error e => .error e
  | .ok l1 =>
    match label_step l1 doc.label_ss with
    | .error e => .error e
    | .ok l2 =>
      match label_step l2 doc.skos_altLabel_ss with
      | .error e => .error e
      | .ok l3 =>
        if pyFalsy l3 then
          match doc.id with
          | some i => .ok i
          | none => .error (.keyError "id")
        else .ok (l3.getD "")

namespace Entity_Linker

/-- The fixed projection field list `Entity_Linker.fields` (lines 23-36). -/
def fields : List String :=
  ["id", "score", "type_ss", "label_ss", "label_txt",
   "preferred_label_s", "preferred_label_txt",
   "skos_prefLabel_ss", "skos_prefLabel_txt",
   "skos_altLabel_ss", "skos_altLabel_txt",
   "skos_hiddenLabel_ss", "skos_hiddenLabel_txt"]

/-- Default of the `limit` parameter of `query_entities`,
`dictionary_matcher` and `entities`. -/
def limit_default : Nat := 10000

end Entity_Linker

/-- Python's `str.lower()` as used by the match scan (ASCII case
folding, `Char.toLower` on each character), defined over the character
list so that it evaluates by reduction. -/
def pyLower (s : String) : String := ⟨s.data.map Char.toLower⟩

/-- The exact-match scan of `query_entities` (lines 113-124): `match`
is set when any value of any present projected field other than
`score` (scalars listified) equals the query string after lowering
both sides. -/
def match_scan (doc : EntityRecord) (queryStr : String) : Bool :=
  Entity_Linker.fields.any fun field =>
    match recordGet? doc field with
    | none => false
    | some fv =>
      if field = "score" then false
      else (valuesOf fv).any fun value => pyLower value == pyLower queryStr

/-- Normalization of one query-path record (lines 87-134): label
fallback, `type` default, match scan, then the `result` dict whose
construction reads `search_result['id']` and `search_result['score']`
unconditionally. -/
def normalize_query_doc (queryStr : String) (doc : EntityRecord) :
    Except LinkErr ResolvedEntity :=
  match pick_label doc with
  | .error e => .error e
  | .ok label =>
    match doc.id with
    | none => .error (.keyError "id")
    | some i =>
      match doc.score with
      | none => .error (.keyError "score")
      | some sc =>
        .ok { id := i, name := label, score := some sc,
              is_match := match_scan doc queryStr,
              type := doc.type_ss.getD [], extra := [] }

/-- Normalization of the whole `docs` list of one query response (the
`for search_result in ...` loop); the first raised exception aborts
the query call. -/
def normalize_docs (queryStr : String) : List EntityRecord → Except LinkErr (List ResolvedEntity)
  | [] => .ok []
  | doc :: rest =>
    match normalize_query_doc queryStr doc with
    | .error e => .error e
    | .ok e =>
      match normalize_docs queryStr rest with
      | .error err => .error err
      | .ok es => .ok (e :: es)

/-- The select endpoint as an oracle: the code sends the quoted query
string and the computed row cap (the rest of the request parameters
are constants); the index answers with the `docs` list or the call
raises a transport/decode error. -/
abbrev QueryOracle := String → Nat → Except LinkErr (List EntityRecord)

/-- The tagger endpoint as an oracle: the code sends the tagger name
and the text body; the index answers with the matched `docs` list or
the call raises a transport/decode error. -/
abbrev TagOracle := String → String → Except LinkErr (List EntityRecord)

/-- Row cap of one query (lines 70-73): the per-query `limit` when the
query carries one, else the call-level `limit` parameter. -/
def rowsFor (q : Query) (limit : Nat) : Nat :=
  match q.limit with
  | some l => l
  | none => limit

/-- `Entity_Linker.query_entities` (lines 44-138): the incoming
`normalized_entities` argument is rebound to a fresh dict (line 46),
so the accumulator starts empty; each query issues one select request
under its row cap, normalizes every returned record, and stores the
result list under the query key.  `queries` is a dict embedded as an
ordered association list; the unused `language`,
`normalized_label_languages` and `text` parameters are omitted. -/
def query_entities (qOracle : QueryOracle) (limit : Nat) :
    List (String × Query) → ResultMap → Except LinkErr ResultMap
  | [], acc => .ok acc
  | (key, q) :: rest, acc =>
    match qOracle q.query (rowsFor q limit) with
    | .error e => .error e
    | .ok docs =>
      match normalize_docs q.query docs with
      | .error e => .error e
      | .ok results => query_entities qOracle limit rest (insertA acc key results)

/-- Normalization of one dictionary-path record (lines 178-217): label
fallback and `type` as on the query path, `match` always `True`, no
`score`, requested additional result fields copied verbatim when
present; returns the entity together with `entity['id']`, the key it
is stored under. -/
def normalize_dict_doc (additional_result_fields : List String) (doc : EntityRecord) :
    Except LinkErr (String × ResolvedEntity) :=
  match pick_label doc with
  | .error e => .error e
  | .ok label =>
    match doc.id with
    | none => .error (.keyError "id")
    | some i =>
      .ok (i, { id := i, name := label, score := none,
                is_match := true,
                type := doc.type_ss.getD [],
                extra := additional_result_fields.filterMap fun f =>
                  (recordGet? doc f).map fun v => (f, v) })

/-- The tagging loop of `dictionary_matcher` (lines 177-217): each
record is normalized and written into the accumulator under its id
(`normalized_entities[entity['id']] = {'result': [result]}`); because
the dict is mutated in place, a record that raises mid-loop leaves the
writes of the earlier records in the map, so the map built so far is
returned together with the pending error. -/
def tag_docs (additional_result_fields : List String) :
    List EntityRecord → ResultMap → ResultMap × Option LinkErr
  | [], acc => (acc, none)
  | doc :: rest, acc =>
    match normalize_dict_doc additional_result_fields doc with
    | .error e => (acc, some e)
    | .ok (i, e) => tag_docs additional_result_fields rest (insertA acc i [e])

/-- `Entity_Linker.dictionary_matcher` (lines 146-219): posting `text`
to the named tagger and folding the matched records into the
caller-supplied accumulator.  `text.encode('utf-8')` with `text =
None` raises `AttributeError` before any request is made; a transport
or decode failure of the request likewise leaves the accumulator
untouched.  The pair result carries the (possibly partially updated)
accumulator together with the raised exception, if any — in Python
the accumulator object itself is mutated, so the caller observes these
writes even when the call raises. -/
def dictionary_matcher (tOracle : TagOracle) (text : Option String) (limit : Nat)
    (tagger : String) (normalized_entities : ResultMap)
    (additional_result_fields : List String) : ResultMap × Option LinkErr :=
  match text with
  | none => (normalized_entities, some .attributeError)
  | some t =>
    match tOracle tagger t with
    | .error e => (normalized_entities, some e)
    | .ok docs => tag_docs additional_result_fields docs normalized_entities

/-- The tagger loop of `Entity_Linker.entities` (lines 235-240): run
`dictionary_matcher` once per tagger in listed order over one shared
accumulator; a raised exception is caught and written to stderr with
the tagger name (modelled by the error log), and the loop continues
with the accumulator as the failed call left it. -/
def run_taggers (tOracle : TagOracle) (text : Option String) (limit : Nat)
    (additional_result_fields : List String) :
    List String → ResultMap → List (String × LinkErr) → ResultMap × List (String × LinkErr)
  | [], acc, log => (acc, log)
  | tagger :: rest, acc, log =>
    match dictionary_matcher tOracle text limit tagger acc additional_result_fields with
    | (acc2, none) => run_taggers tOracle text limit additional_result_fields rest acc2 log
    | (acc2, some e) =>
      run_taggers tOracle text limit additional_result_fields rest acc2 (log ++ [(tagger, e)])

/-- `Entity_Linker.entities` (lines 225-242): with truthy `queries`
(present and non-empty) delegate to `query_entities`, whose exceptions
propagate to the caller; otherwise run the dictionary path over all
taggers, catching per-tagger exceptions.  The result carries the map
together with the stderr error log (empty on the query path). -/
def entities (qOracle : QueryOracle) (tOracle : TagOracle)
    (queries : Option (List (String × Query))) (text : Option String) (limit : Nat)
    (taggers : List String) (additional_result_fields : List String) :
    Except LinkErr (ResultMap × List (String × LinkErr)) :=
  if (queries.getD []).isEmpty then
    .ok (run_taggers tOracle text limit additional_result_fields taggers [] [])
  else
    match query_entities qOracle limit (queries.getD []) [] with
    | .error e => .error e
    | .ok m => .ok (m, [])

/-- One fallback step at candidate granularity: if the running label is
falsy and the candidate exists, take it; otherwise keep the label. -/
def stepCand (label : Option String) (cand : Option String) : Option String :=
  if pyFalsy label then
    match cand with
    | some x => some x
    | none => label
  else label

/-- Folding `stepCand` over a candidate list. -/
def chainCands (label : Option String) : List (Option String) → Option String
  | [] => label
  | c :: cs => chainCands (stepCand label c) cs

theorem stepCand_none_cand (l : Option String) : stepCand l none = l := by
  by_cases h : pyFalsy l = true <;> simp [stepCand, h]

theorem stepCand_from_none (c : Option String) : stepCand none c = c := by
  cases c <;> simp [stepCand, pyFalsy]

theorem stepCand_not_falsy (l c : Option String) (h : ¬ pyFalsy l = true) :
    stepCand l c = l := by
  simp [stepCand, h]

/-- A present, non-empty label-set field contributes its first entry as
the candidate; `label_step` then is exactly `stepCand` on it. -/
theorem label_step_ok (l : Option String) (field : Option (List String))
    (h : field ≠ some []) :
    label_step l field = .ok (stepCand l (field.bind List.head?)) := by
  cases field with
  | none =>
    by_cases hf : pyFalsy l = true <;> simp [label_step, stepCand, hf]
  | some vs =>
    cases vs with
    | nil => exact absurd rfl h
    | cons x xs =>
      by_cases hf : pyFalsy l = true <;>
        simp [label_step, stepCand, hf, List.head?]

/-- The present candidates, in order. -/
def flattenCands : List (Option String) → List String
  | [] => []
  | none :: cs => flattenCands cs
  | some x :: cs => x :: flattenCands cs

/-- Characterization of the candidate chain: starting from a falsy
label, the final displayed string (id on falsy, the value otherwise)
is the first non-empty candidate, else `i`. -/
theorem chainCands_spec (i : String) :
    ∀ (cs : List (Option String)) (l : Option String),
    (if pyFalsy (chainCands l cs) then i else (chainCands l cs).getD "") =
    (if pyFalsy l then ((flattenCands cs).filter (fun s => s != "")).headD i
     else l.getD "") := by
  intro cs
  induction cs with
  | nil => intro l; simp [chainCands, flattenCands]
  | cons c cs ih =>
    intro l
    by_cases hf : pyFalsy l = true
    · cases c with
      | none =>
        simp only [chainCands, stepCand_none_cand, ih, hf, if_true, flattenCands]
      | some x =>
        have hstep : stepCand l (some x) = some x := by simp [stepCand, hf]
        by_cases hx : x = ""
        · subst hx
          rw [chainCands, hstep, ih (some ""), if_pos hf]
          have h0 : pyFalsy (some "") = true := rfl
          rw [if_pos h0]
          simp [flattenCands]
        · have hxb : (x != "") = true := by simp [hx]
          have hpx : pyFalsy (some x) = false := by simp [pyFalsy, hx]
          simp only [chainCands, hstep, ih, flattenCands, hpx, hf, if_true,
            Bool.false_eq_true, if_false, List.filter_cons, hxb]
          simp [List.headD_cons, Option.getD]
    · have hc : chainCands (stepCand l c) cs = chainCands l cs := by
        rw [stepCand_not_falsy l c hf]
      simp only [chainCands, hc, ih, hf]
      simp

/-- Candidates of the label fallback, in the consulted order: the
single preferred label and the first entries of the preferred-label,
plain-label and alt-label sets. -/
def labelCandidates (doc : EntityRecord) : List (Option String) :=
  [doc.preferred_label_s,
   doc.skos_prefLabel_ss.bind List.head?,
   doc.label_ss.bind List.head?,
   doc.skos_altLabel_ss.bind List.head?]

/-- The amended name-selection rule, following the spec's fallback
wording with the correction the code forces: every candidate (not only
the single preferred label) is skipped when absent or empty, and the
raw id is the final fallback. -/
def specFallbackName (doc : EntityRecord) (i : String) : String :=
  ((flattenCands (labelCandidates doc)).filter (fun s => s != "")).headD i

/-- The name-selection rule exactly as the claim states it: the single
preferred label if present and non-empty, else the first entry of the
preferred-label set, else the first entry of the plain-label set, else
the first entry of the alt-label set, else the raw id.  (A present but
entryless set is treated as absent here; the claim does not speak of
that case.) -/
def specClaimedName (doc : EntityRecord) (i : String) : String :=
  match doc.preferred_label_s with
  | some p => if p != "" then p else specClaimedNameSets doc i
  | none => specClaimedNameSets doc i
where
  specClaimedNameSets (doc : EntityRecord) (i : String) : String :=
    match doc.skos_prefLabel_ss with
    | some (x :: _) => x
    | _ =>
      match doc.label_ss with
      | some (x :: _) => x
      | _ =>
        match doc.skos_altLabel_ss with
        | some (x :: _) => x
        | _ => i

theorem filter_headD_eq_empty (l : List String) (i : String)
    (h : ((l.filter (fun s => s != "")).headD i) = "") : i = "" := by
  cases hf : l.filter (fun s => s != "") with
  | nil => rw [hf] at h; simpa using h
  | cons x xs =>
    rw [hf, List.headD_cons] at h
    have hx : x ∈ l.filter (fun s => s != "") := by
      rw [hf]; exact List.mem_cons_self x xs
    have hne := (List.mem_filter.mp hx).2
    rw [h] at hne
    simp at hne

/-- Under a present id and no present-but-entryless consulted label
sets, `pick_label` succeeds and returns the first non-empty candidate,
falling back to the id. -/
theorem pick_label_eq_specFallbackName (doc : EntityRecord) (i : String)
    (hid : doc.id = some i)
    (h1 : doc.skos_prefLabel_ss ≠ some [])
    (h2 : doc.label_ss ≠ some [])
    (h3 : doc.skos_altLabel_ss ≠ some []) :
    pick_label doc = .ok (specFallbackName doc i) := by
  have hchain :
      stepCand (stepCand (stepCand doc.preferred_label_s
          (doc.skos_prefLabel_ss.bind List.head?))
          (doc.label_ss.bind List.head?))
          (doc.skos_altLabel_ss.bind List.head?)
        = chainCands none (labelCandidates doc) := by
    simp [chainCands, labelCandidates, stepCand_from_none]
  simp only [pick_label, label_step_ok _ _ h1, label_step_ok _ _ h2,
    label_step_ok _ _ h3, hid, hchain]
  rw [← apply_ite Except.ok]
  rw [chainCands_spec i (labelCandidates doc) none]
  have h0 : pyFalsy none = true := rfl
  rw [if_pos h0]
  rfl

/-- Record on which the claimed fallback order and the code diverge:
no single preferred label, preferred-label set `[""]`, plain-label set
`["L"]`. -/
def C1doc : EntityRecord :=
  { emptyRecord with
      id := some "X"
      score := some "1.0"
      skos_prefLabel_ss := some [""]
      label_ss := some ["L"] }

/-- C1, counterexample: the claim's fallback order demands the first
entry of the preferred-label set (here the empty string) as `name`,
but the code skips the empty entry and emits the plain-label entry
`"L"`; so the claimed order, and with it the exact fallback chain,
does not hold as stated. -/
theorem C1_label_fallback_counterexample :
    (normalize_query_doc "q" C1doc).map ResolvedEntity.name = .ok "L" ∧
    specClaimedName C1doc "X" = "" ∧ ("L" : String) ≠ "" :=
  ⟨rfl, rfl, by decide⟩

/-- C1 (amended): for a record with a present id whose consulted
label-set fields, when present, are non-empty lists, the emitted name
(on both the query and the dictionary path) is the first non-empty
candidate in the order preferred label, first preferred-set entry,
first plain-set entry, first alt-set entry, with the raw id as final
fallback; a record with no label fields resolves name to its id, and
the name is empty only when the fallback reached an empty id. -/
theorem C1_label_fallback (doc : EntityRecord) (i queryStr : String)
    (fs : List String) (e : ResolvedEntity) (pr : String × ResolvedEntity)
    (hid : doc.id = some i)
    (h1 : doc.skos_prefLabel_ss ≠ some [])
    (h2 : doc.label_ss ≠ some [])
    (h3 : doc.skos_altLabel_ss ≠ some []) :
    pick_label doc = .ok (specFallbackName doc i) ∧
    (normalize_query_doc queryStr doc = .ok e →
      e.name = specFallbackName doc i) ∧
    (normalize_dict_doc fs doc = .ok pr →
      pr.2.name = specFallbackName doc i) ∧
    ((doc.preferred_label_s = none ∧ doc.skos_prefLabel_ss = none ∧
      doc.label_ss = none ∧ doc.skos_altLabel_ss = none) →
      specFallbackName doc i = i) ∧
    (specFallbackName doc i = "" → i = "") := by
  have hpl := pick_label_eq_specFallbackName doc i hid h1 h2 h3
  refine ⟨hpl, ?_, ?_, ?_, ?_⟩
  · intro hq
    rw [normalize_query_doc, hpl, hid] at hq
    cases hs : doc.score with
    | none => rw [hs] at hq; cases hq
    | some sc =>
      rw [hs] at hq
      simp only [Except.ok.injEq] at hq
      rw [← hq]
  · intro hd
    rw [normalize_dict_doc, hpl, hid] at hd
    simp only [Except.ok.injEq] at hd
    rw [← hd]
  · intro hnone
    simp [specFallbackName, labelCandidates, flattenCands,
      hnone.1, hnone.2.1, hnone.2.2.1, hnone.2.2.2]
  · exact filter_headD_eq_empty _ i

/-- Record for the C1 witness: no label fields at all and no `score`,
as the tagger endpoint's projection (which omits `score`) delivers, so
the name falls back to the id on the dictionary path. -/
def C1wdoc : EntityRecord :=
  { emptyRecord with id := some "W" }

/-- Query-path entity instantiating the theorem's binder (the
query-path implication is vacuous at the score-less witness record). -/
def C1wq : ResolvedEntity :=
  { id := "W", name := "W", score := some "3.0", is_match := false, type := [], extra := [] }

/-- Expected dictionary-path entity at the C1 witness record. -/
def C1wd : ResolvedEntity :=
  { id := "W", name := "W", score := none, is_match := true, type := [], extra := [] }

/-- C1, witness: the dictionary path processes the score-less,
label-less record `C1wdoc` into the entity `C1wd`, and the theorem
applies, resolving the name to the id `"W"`. -/
theorem C1_label_fallback_witness :
    normalize_dict_doc [] C1wdoc = .ok ("W", C1wd) ∧
    (pick_label C1wdoc = .ok (specFallbackName C1wdoc "W") ∧
     (normalize_query_doc "q" C1wdoc = .ok C1wq →
       C1wq.name = specFallbackName C1wdoc "W") ∧
     (normalize_dict_doc [] C1wdoc = .ok ("W", C1wd) →
       (("W", C1wd) : String × ResolvedEntity).2.name = specFallbackName C1wdoc "W") ∧
     ((C1wdoc.preferred_label_s = none ∧ C1wdoc.skos_prefLabel_ss = none ∧
       C1wdoc.label_ss = none ∧ C1wdoc.skos_altLabel_ss = none) →
       specFallbackName C1wdoc "W" = "W") ∧
     (specFallbackName C1wdoc "W" = "" → "W" = "")) :=
  ⟨rfl,
   C1_label_fallback C1wdoc "W" "q" [] C1wq ("W", C1wd)
     rfl (by decide) (by decide) (by decide)⟩

/-- The match condition as the spec states it: some value of some
projected field of the record other than `score` (a scalar field value
treated as a single-element list) is case-insensitively equal, as a
string, to the query string. -/
def specMatchPred (doc : EntityRecord) (queryStr : String) : Prop :=
  ∃ field ∈ Entity_Linker.fields, field ≠ "score" ∧
    ∃ fv, recordGet? doc field = some fv ∧
      ∃ v ∈ valuesOf fv, pyLower v = pyLower queryStr

theorem match_scan_iff (doc : EntityRecord) (queryStr : String) :
    match_scan doc queryStr = true ↔ specMatchPred doc queryStr := by
  unfold match_scan specMatchPred
  rw [List.any_eq_true]
  constructor
  · rintro ⟨field, hfield, hp⟩
    refine ⟨field, hfield, ?_⟩
    cases hg : recordGet? doc field with
    | none =>
      rw [hg] at hp
      exact Bool.noConfusion hp
    | some fv =>
      rw [hg] at hp
      have hp2 : (if field = "score" then false
          else (valuesOf fv).any fun value => pyLower value == pyLower queryStr) = true := hp
      by_cases hs : field = "score"
      · rw [if_pos hs] at hp2; cases hp2
      · rw [if_neg hs] at hp2
        rw [List.any_eq_true] at hp2
        obtain ⟨v, hv, hvq⟩ := hp2
        exact ⟨hs, fv, rfl, v, hv, by simpa using hvq⟩
  · rintro ⟨field, hfield, hs, fv, hg, v, hv, hvq⟩
    refine ⟨field, hfield, ?_⟩
    rw [hg]
    show (if field = "score" then false
        else (valuesOf fv).any fun value => pyLower value == pyLower queryStr) = true
    rw [if_neg hs, List.any_eq_true]
    exact ⟨v, hv, by simpa using hvq⟩

/-- On success, the emitted query-path entity's flag is the match scan. -/
theorem normalize_query_is_match (queryStr : String) (doc : EntityRecord)
    (e : ResolvedEntity) (h : normalize_query_doc queryStr doc = .ok e) :
    e.is_match = match_scan doc queryStr := by
  unfold normalize_query_doc at h
  cases hp : pick_label doc with
  | error err => rw [hp] at h; cases h
  | ok label =>
    rw [hp] at h
    cases hid : doc.id with
    | none => rw [hid] at h; cases h
    | some i =>
      rw [hid] at h
      cases hs : doc.score with
      | none => rw [hs] at h; cases h
      | some sc =>
        rw [hs] at h
        simp only [Except.ok.injEq] at h
        rw [← h]

/-- C2: for every query-strategy result, the emitted match flag is true
iff some value of some projected field other than `score` (scalars as
single-element lists) case-insensitively equals the query string. -/
theorem C2_match_iff (queryStr : String) (doc : EntityRecord) (e : ResolvedEntity)
    (h : normalize_query_doc queryStr doc = .ok e) :
    e.is_match = true ↔ specMatchPred doc queryStr := by
  rw [normalize_query_is_match queryStr doc e h]
  exact match_scan_iff doc queryStr

/-- Record for the C2 witness: labels `["Paris", "City of Paris"]`,
queried (case-insensitively) as `"paris"`. -/
def C2doc : EntityRecord :=
  { emptyRecord with
      id := some "P1"
      score := some "2.5"
      label_ss := some ["Paris", "City of Paris"] }

/-- Entity the query path emits for `C2doc`. -/
def C2ent : ResolvedEntity :=
  { id := "P1", name := "Paris", score := some "2.5", is_match := true, type := [], extra := [] }

/-- C2, witness: the emitted entity for query `"paris"` against
`C2doc` has a true flag and the field scan holds. -/
theorem C2_match_iff_witness :
    normalize_query_doc "paris" C2doc = .ok C2ent ∧
    (C2ent.is_match = true ↔ specMatchPred C2doc "paris") :=
  ⟨rfl, C2_match_iff "paris" C2doc C2ent rfl⟩

/-- Every entity of every entry of the map has a true match flag. -/
def allMatchTrue (m : ResultMap) : Prop :=
  ∀ p ∈ m, ∀ e ∈ p.2, e.is_match = true

/-- The dictionary-path normalizer always sets `match` to `True`. -/
theorem normalize_dict_is_match (fs : List String) (doc : EntityRecord)
    (p : String × ResolvedEntity) (h : normalize_dict_doc fs doc = .ok p) :
    p.2.is_match = true := by
  unfold normalize_dict_doc at h
  cases hp : pick_label doc with
  | error err => rw [hp] at h; cases h
  | ok label =>
    rw [hp] at h
    cases hid : doc.id with
    | none => rw [hid] at h; cases h
    | some i =>
      rw [hid] at h
      simp only [Except.ok.injEq] at h
      rw [← h]

theorem tag_docs_allMatchTrue (fs : List String) (docs : List EntityRecord) :
    ∀ acc : ResultMap, allMatchTrue acc → allMatchTrue (tag_docs fs docs acc).1 := by
  induction docs with
  | nil => intro acc h; exact h
  | cons doc rest ih =>
    intro acc h
    unfold tag_docs
    cases hn : normalize_dict_doc fs doc with
    | error e => exact h
    | ok p =>
      obtain ⟨i, e⟩ := p
      apply ih
      intro q hq e2 he2
      rcases mem_insertA acc i [e] q hq with h2 | h2
      · rw [h2] at he2
        simp only [List.mem_singleton] at he2
        rw [he2]
        exact normalize_dict_is_match fs doc (i, e) hn
      · exact h q h2 e2 he2

/-- C3: every Resolved Entity produced by the Dictionary Matcher has a
true match flag, for every oracle behaviour, text, tagger, limit and
record contents. -/
theorem C3_dictionary_always_match (tOracle : TagOracle) (text : Option String)
    (limit : Nat) (tagger : String) (fs : List String) (k : String)
    (es : List ResolvedEntity) (e : ResolvedEntity)
    (hk : lookupA (dictionary_matcher tOracle text limit tagger [] fs).1 k = some es)
    (he : e ∈ es) : e.is_match = true := by
  have hnil : allMatchTrue [] := by
    intro p hp e2 he2
    exact absurd hp (List.not_mem_nil p)
  have hinv : allMatchTrue (dictionary_matcher tOracle text limit tagger [] fs).1 := by
    unfold dictionary_matcher
    cases text with
    | none => exact hnil
    | some t =>
      show allMatchTrue (match tOracle tagger t with
        | .error e => (([] : ResultMap), some e)
        | .ok docs => tag_docs fs docs []).1
      cases ho : tOracle tagger t with
      | error err => exact hnil
      | ok docs => exact tag_docs_allMatchTrue fs docs [] hnil
  unfold lookupA at hk
  obtain ⟨p, hfind, hp2⟩ := Option.map_eq_some'.mp hk
  exact hinv p (List.mem_of_find?_eq_some hfind) e (by rw [hp2]; exact he)

/-- Record for the C3 witness. -/
def C3doc : EntityRecord :=
  { emptyRecord with id := some "E1", preferred_label_s := some "Lbl" }

/-- Tagger oracle for the C3 witness: always answers with `C3doc`. -/
def C3oracle : TagOracle := fun _ _ => .ok [C3doc]

/-- Entity the dictionary path emits for `C3doc`. -/
def C3ent : ResolvedEntity :=
  { id := "E1", name := "Lbl", score := none, is_match := true, type := [], extra := [] }

/-- C3, witness: the dictionary path over `C3oracle` emits `C3ent`
under key `"E1"`, and its match flag is true by the theorem. -/
theorem C3_dictionary_always_match_witness :
    lookupA (dictionary_matcher C3oracle (some "text") 10 "tg" [] []).1 "E1"
      = some [C3ent] ∧ C3ent ∈ [C3ent] ∧ C3ent.is_match = true :=
  ⟨rfl, by decide,
   C3_dictionary_always_match C3oracle (some "text") 10 "tg" [] "E1" [C3ent] C3ent
     rfl (by decide)⟩

theorem run_taggers_nil (tOracle : TagOracle) (text : Option String) (limit : Nat)
    (fs : List String) (acc : ResultMap) (log : List (String × LinkErr)) :
    run_taggers tOracle text limit fs [] acc log = (acc, log) := rfl

theorem run_taggers_cons (tOracle : TagOracle) (text : Option String) (limit : Nat)
    (fs : List String) (tagger : String) (rest : List String) (acc : ResultMap)
    (log : List (String × LinkErr)) :
    run_taggers tOracle text limit fs (tagger :: rest) acc log =
      match dictionary_matcher tOracle text limit tagger acc fs with
      | (acc2, none) => run_taggers tOracle text limit fs rest acc2 log
      | (acc2, some e) => run_taggers tOracle text limit fs rest acc2 (log ++ [(tagger, e)]) :=
  rfl

/-- A transport/decode failure of the tagger request leaves the
accumulator untouched and surfaces the error. -/
theorem dictionary_matcher_transport_fail (tOracle : TagOracle) (t : String)
    (limit : Nat) (tagger : String) (acc : ResultMap) (fs : List String)
    (e : LinkErr) (hA : tOracle tagger t = .error e) :
    dictionary_matcher tOracle (some t) limit tagger acc fs = (acc, some e) := by
  simp only [dictionary_matcher, hA]

/-- C4: when the dictionary path runs over the tagger list, a
transport or decode failure while processing one tagger is caught and
reported to the error stream with that tagger's name, its contribution
is skipped, the remaining taggers still run, the call returns normally,
and the final map holds the successful tagger's results. -/
theorem C4_one_tagger_failure (qOracle : QueryOracle) (tOracle : TagOracle)
    (t : String) (limit : Nat) (fs : List String) (tA tB : String)
    (e : LinkErr) (m : ResultMap)
    (hA : tOracle tA t = .error e)
    (hB : dictionary_matcher tOracle (some t) limit tB [] fs = (m, none)) :
    entities qOracle tOracle none (some t) limit [tA, tB] fs = .ok (m, [(tA, e)]) := by
  show Except.ok (run_taggers tOracle (some t) limit fs [tA, tB] [] []) =
    Except.ok ((m, [(tA, e)]) : ResultMap × List (String × LinkErr))
  rw [run_taggers_cons, dictionary_matcher_transport_fail tOracle t limit tA [] fs e hA]
  show Except.ok (run_taggers tOracle (some t) limit fs [tB] [] [(tA, e)]) =
    Except.ok ((m, [(tA, e)]) : ResultMap × List (String × LinkErr))
  rw [run_taggers_cons, hB]
  rfl

/-- Record tagged by the succeeding tagger in the C4 witness. -/
def C4doc : EntityRecord :=
  { emptyRecord with id := some "B1", label_ss := some ["B"] }

/-- Tagger oracle for the C4 witness: transport failure for `tagA`,
one record for any other tagger. -/
def C4oracle : TagOracle := fun tagger _ =>
  if tagger = "tagA" then .error (.transportError "connection refused") else .ok [C4doc]

/-- Query oracle for the C4 witness (unused on the dictionary path). -/
def C4qOracle : QueryOracle := fun _ _ => .ok []

/-- Entity the dictionary path emits for `C4doc`. -/
def C4ent : ResolvedEntity :=
  { id := "B1", name := "B", score := none, is_match := true, type := [], extra := [] }

/-- C4, witness: `tagA` fails with a transport error, `tagB` succeeds;
the dispatch returns normally with `tagB`'s map and the failure logged
under `tagA`. -/
theorem C4_one_tagger_failure_witness :
    C4oracle "tagA" "txt" = .error (.transportError "connection refused") ∧
    dictionary_matcher C4oracle (some "txt") 10 "tagB" [] [] = ([("B1", [C4ent])], none) ∧
    entities C4qOracle C4oracle none (some "txt") 10 ["tagA", "tagB"] [] =
      .ok ([("B1", [C4ent])], [("tagA", .transportError "connection refused")]) :=
  ⟨rfl, rfl,
   C4_one_tagger_failure C4qOracle C4oracle "txt" 10 [] "tagA" "tagB"
     (.transportError "connection refused") [("B1", [C4ent])] rfl rfl⟩

/-- C5: running the taggers in listed order accumulates all their
entities into one map keyed by entity id: ids from different taggers
all appear, a later write for the same id (later tagger, or later
occurrence within one tagger response) replaces the earlier one, and
each entry's result list holds exactly that one entity. -/
theorem C5_multi_tagger_accumulation (qOracle : QueryOracle) (tOracle : TagOracle)
    (t : String) (limit : Nat) (fs : List String) (tA tB : String)
    (dA dB dB2 : EntityRecord) (idA idB idB2 : String) (eA eB eB2 : ResolvedEntity)
    (hOA : tOracle tA t = .ok [dA])
    (hOB : tOracle tB t = .ok [dB, dB2])
    (hnA : normalize_dict_doc fs dA = .ok (idA, eA))
    (hnB : normalize_dict_doc fs dB = .ok (idB, eB))
    (hnB2 : normalize_dict_doc fs dB2 = .ok (idB2, eB2)) :
    entities qOracle tOracle none (some t) limit [tA, tB] fs =
      .ok (insertA (insertA (insertA [] idA [eA]) idB [eB]) idB2 [eB2], []) ∧
    lookupA (insertA (insertA (insertA [] idA [eA]) idB [eB]) idB2 [eB2]) idB2
      = some [eB2] ∧
    (idB ≠ idB2 →
      lookupA (insertA (insertA (insertA [] idA [eA]) idB [eB]) idB2 [eB2]) idB
        = some [eB]) ∧
    (idA ≠ idB → idA ≠ idB2 →
      lookupA (insertA (insertA (insertA [] idA [eA]) idB [eB]) idB2 [eB2]) idA
        = some [eA]) := by
  have hdA : dictionary_matcher tOracle (some t) limit tA [] fs
      = (insertA [] idA [eA], none) := by
    simp only [dictionary_matcher, hOA, tag_docs, hnA]
  have hdB : dictionary_matcher tOracle (some t) limit tB (insertA [] idA [eA]) fs
      = (insertA (insertA (insertA [] idA [eA]) idB [eB]) idB2 [eB2], none) := by
    simp only [dictionary_matcher, hOB, tag_docs, hnB, hnB2]
  refine ⟨?_, ?_, ?_, ?_⟩
  · show Except.ok (run_taggers tOracle (some t) limit fs [tA, tB] [] []) =
      Except.ok ((insertA (insertA (insertA [] idA [eA]) idB [eB]) idB2 [eB2],
        ([] : List (String × LinkErr))) : ResultMap × List (String × LinkErr))
    rw [run_taggers_cons, hdA]
    show Except.ok (run_taggers tOracle (some t) limit fs [tB] (insertA [] idA [eA]) []) =
      Except.ok ((insertA (insertA (insertA [] idA [eA]) idB [eB]) idB2 [eB2],
        ([] : List (String × LinkErr))) : ResultMap × List (String × LinkErr))
    rw [run_taggers_cons, hdB]
    rfl
  · rw [lookupA_insertA, if_pos rfl]
  · intro h
    rw [lookupA_insertA, if_neg h, lookupA_insertA, if_pos rfl]
  · intro h1 h2
    rw [lookupA_insertA, if_neg h2, lookupA_insertA, if_neg h1,
      lookupA_insertA, if_pos rfl]

/-- Record tagged by the first tagger in the C5 witness. -/
def C5dA : EntityRecord :=
  { emptyRecord with id := some "E1", preferred_label_s := some "One" }

/-- First record tagged by the second tagger in the C5 witness. -/
def C5dB : EntityRecord :=
  { emptyRecord with id := some "E2", preferred_label_s := some "Two" }

/-- Second record tagged by the second tagger in the C5 witness; it
recurs under the id `"E2"` and must win. -/
def C5dB2 : EntityRecord :=
  { emptyRecord with id := some "E2", preferred_label_s := some "TwoPrime" }

/-- Tagger oracle for the C5 witness. -/
def C5oracle : TagOracle := fun tagger _ =>
  if tagger = "tagA" then .ok [C5dA] else .ok [C5dB, C5dB2]

/-- Query oracle for the C5 witness (unused on the dictionary path). -/
def C5qOracle : QueryOracle := fun _ _ => .ok []

/-- Entity emitted for `C5dA`. -/
def C5eA : ResolvedEntity :=
  { id := "E1", name := "One", score := none, is_match := true, type := [], extra := [] }

/-- Entity emitted for `C5dB`. -/
def C5eB : ResolvedEntity :=
  { id := "E2", name := "Two", score := none, is_match := true, type := [], extra := [] }

/-- Entity emitted for `C5dB2`. -/
def C5eB2 : ResolvedEntity :=
  { id := "E2", name := "TwoPrime", score := none, is_match := true, type := [], extra := [] }

/-- C5, witness: tagger A tags `"E1"`, tagger B tags `"E2"` twice; the
final map holds both ids, `"E2"` carrying the later entity. -/
theorem C5_multi_tagger_accumulation_witness :
    C5oracle "tagA" "txt" = .ok [C5dA] ∧
    C5oracle "tagB" "txt" = .ok [C5dB, C5dB2] ∧
    normalize_dict_doc [] C5dA = .ok ("E1", C5eA) ∧
    normalize_dict_doc [] C5dB = .ok ("E2", C5eB) ∧
    normalize_dict_doc [] C5dB2 = .ok ("E2", C5eB2) ∧
    (entities C5qOracle C5oracle none (some "txt") 10 ["tagA", "tagB"] [] =
      .ok (insertA (insertA (insertA [] "E1" [C5eA]) "E2" [C5eB]) "E2" [C5eB2], []) ∧
     lookupA (insertA (insertA (insertA [] "E1" [C5eA]) "E2" [C5eB]) "E2" [C5eB2]) "E2"
       = some [C5eB2] ∧
     (("E2" : String) ≠ "E2" →
       lookupA (insertA (insertA (insertA [] "E1" [C5eA]) "E2" [C5eB]) "E2" [C5eB2]) "E2"
         = some [C5eB]) ∧
     (("E1" : String) ≠ "E2" → ("E1" : String) ≠ "E2" →
       lookupA (insertA (insertA (insertA [] "E1" [C5eA]) "E2" [C5eB]) "E2" [C5eB2]) "E1"
         = some [C5eA])) :=
  ⟨rfl, rfl, rfl, rfl, rfl,
   C5_multi_tagger_accumulation C5qOracle C5oracle "txt" 10 [] "tagA" "tagB"
     C5dA C5dB C5dB2 "E1" "E2" "E2" C5eA C5eB C5eB2 rfl rfl rfl rfl rfl⟩

theorem query_entities_nil (qOracle : QueryOracle) (limit : Nat) (acc : ResultMap) :
    query_entities qOracle limit [] acc = .ok acc := rfl

theorem query_entities_cons (qOracle : QueryOracle) (limit : Nat) (key : String)
    (q : Query) (rest : List (String × Query)) (acc : ResultMap) :
    query_entities qOracle limit ((key, q) :: rest) acc =
      match qOracle q.query (rowsFor q limit) with
      | .error e => .error e
      | .ok docs =>
        match normalize_docs q.query docs with
        | .error e => .error e
        | .ok results => query_entities qOracle limit rest (insertA acc key results) :=
  rfl

theorem query_entities_append (qOracle : QueryOracle) (limit : Nat)
    (as bs : List (String × Query)) : ∀ acc : ResultMap,
    query_entities qOracle limit (as ++ bs) acc =
      match query_entities qOracle limit as acc with
      | .error e => .error e
      | .ok m => query_entities qOracle limit bs m := by
  induction as with
  | nil => intro acc; rfl
  | cons p as ih =>
    intro acc
    obtain ⟨key, q⟩ := p
    rw [List.cons_append, query_entities_cons, query_entities_cons]
    cases qOracle q.query (rowsFor q limit) with
    | error e => rfl
    | ok docs =>
      show (match normalize_docs q.query docs with
        | Except.error e => (Except.error e : Except LinkErr ResultMap)
        | Except.ok results =>
          query_entities qOracle limit (as ++ bs) (insertA acc key results)) =
        match (match normalize_docs q.query docs with
          | Except.error e => (Except.error e : Except LinkErr ResultMap)
          | Except.ok results =>
            query_entities qOracle limit as (insertA acc key results)) with
        | Except.error e => Except.error e
        | Except.ok m => query_entities qOracle limit bs m
      cases normalize_docs q.query docs with
      | error e => rfl
      | ok results => exact ih (insertA acc key results)

/-- Inversion of one successful query step. -/
theorem query_entities_cons_ok (qOracle : QueryOracle) (limit : Nat) (key : String)
    (q : Query) (rest : List (String × Query)) (acc m : ResultMap)
    (h : query_entities qOracle limit ((key, q) :: rest) acc = .ok m) :
    ∃ docs results, qOracle q.query (rowsFor q limit) = .ok docs ∧
      normalize_docs q.query docs = .ok results ∧
      query_entities qOracle limit rest (insertA acc key results) = .ok m := by
  rw [query_entities_cons] at h
  cases ho : qOracle q.query (rowsFor q limit) with
  | error e => rw [ho] at h; exact Except.noConfusion h
  | ok docs =>
    rw [ho] at h
    have h2 : (match normalize_docs q.query docs with
      | Except.error e => (Except.error e : Except LinkErr ResultMap)
      | Except.ok results =>
        query_entities qOracle limit rest (insertA acc key results)) = .ok m := h
    cases hn : normalize_docs q.query docs with
    | error e => rw [hn] at h2; exact Except.noConfusion h2
    | ok results =>
      rw [hn] at h2
      exact ⟨docs, results, rfl, hn, h2⟩

/-- Keys never written by the remaining queries keep their accumulator
entry. -/
theorem query_entities_preserve (qOracle : QueryOracle) (limit : Nat) (k : String) :
    ∀ (rest : List (String × Query)) (acc m : ResultMap),
    (∀ p ∈ rest, p.1 ≠ k) → query_entities qOracle limit rest acc = .ok m →
    lookupA m k = lookupA acc k := by
  intro rest
  induction rest with
  | nil =>
    intro acc m _ h
    have h2 : Except.ok acc = Except.ok m := h
    injection h2 with h3
    rw [h3]
  | cons p rest ih =>
    intro acc m hne h
    obtain ⟨key, q⟩ := p
    obtain ⟨docs, results, ho, hn, hrest⟩ :=
      query_entities_cons_ok qOracle limit key q rest acc m h
    have hk := ih (insertA acc key results) m
      (fun p hp => hne p (List.mem_cons_of_mem _ hp)) hrest
    rw [hk, lookupA_insertA]
    have hkk : ¬ k = key := fun hh =>
      (hne (key, q) (List.mem_cons_self _ _)) hh.symm
    rw [if_neg hkk]

/-- Successful normalization emits exactly one entity per record. -/
theorem normalize_docs_length (queryStr : String) :
    ∀ (docs : List EntityRecord) (results : List ResolvedEntity),
    normalize_docs queryStr docs = .ok results → results.length = docs.length := by
  intro docs
  induction docs with
  | nil =>
    intro results h
    have h2 : Except.ok ([] : List ResolvedEntity) = .ok results := h
    injection h2 with h3
    rw [← h3]
    rfl
  | cons doc rest ih =>
    intro results h
    have h2 : (match normalize_query_doc queryStr doc with
      | Except.error e => (Except.error e : Except LinkErr (List ResolvedEntity))
      | Except.ok e =>
        match normalize_docs queryStr rest with
        | Except.error err => Except.error err
        | Except.ok es => Except.ok (e :: es)) = .ok results := h
    cases hn : normalize_query_doc queryStr doc with
    | error e => rw [hn] at h2; exact Except.noConfusion h2
    | ok e =>
      rw [hn] at h2
      have h3 : (match normalize_docs queryStr rest with
        | Except.error err => (Except.error err : Except LinkErr (List ResolvedEntity))
        | Except.ok es => Except.ok (e :: es)) = .ok results := h2
      cases hr : normalize_docs queryStr rest with
      | error err => rw [hr] at h3; exact Except.noConfusion h3
      | ok es =>
        rw [hr] at h3
        have h4 : Except.ok (e :: es) = .ok results := h3
        injection h4 with h5
        rw [← h5, List.length_cons, List.length_cons, ih es hr]

/-- With truthy queries the dispatch is the query path. -/
theorem entities_query_path (qOracle : QueryOracle) (tOracle : TagOracle)
    (qs : List (String × Query)) (text : Option String) (limit : Nat)
    (taggers : List String) (fs : List String) (hne : qs.isEmpty = false) :
    entities qOracle tOracle (some qs) text limit taggers fs =
      match query_entities qOracle limit qs [] with
      | .error e => .error e
      | .ok m => .ok (m, []) := by
  unfold entities
  rw [Option.getD_some, hne]
  rfl

/-- With falsy queries the dispatch is the dictionary path. -/
theorem entities_dict_path (qOracle : QueryOracle) (tOracle : TagOracle)
    (queries : Option (List (String × Query))) (text : Option String) (limit : Nat)
    (taggers : List String) (fs : List String)
    (hq : (queries.getD []).isEmpty = true) :
    entities qOracle tOracle queries text limit taggers fs =
      .ok (run_taggers tOracle text limit fs taggers [] []) := by
  unfold entities
  rw [if_pos hq]

/-- C6: the row cap sent to the index for a query is the query's own
limit when it carries one and the call-level default otherwise, and
the number of entities emitted for that key never exceeds the number
of records the index returned under that cap (here it equals it). -/
theorem C6_row_cap (qOracle : QueryOracle) (limit : Nat)
    (pre post : List (String × Query)) (k : String) (q : Query)
    (m : ResultMap) (docs : List EntityRecord)
    (hpost : ∀ p ∈ post, p.1 ≠ k)
    (hok : query_entities qOracle limit (pre ++ (k, q) :: post) [] = .ok m)
    (hdocs : qOracle q.query (rowsFor q limit) = .ok docs) :
    (∀ l, q.limit = some l → rowsFor q limit = l) ∧
    (q.limit = none → rowsFor q limit = limit) ∧
    ∃ results, lookupA m k = some results ∧ results.length ≤ docs.length := by
  refine ⟨?_, ?_, ?_⟩
  · intro l hl; simp [rowsFor, hl]
  · intro hl; simp [rowsFor, hl]
  · rw [query_entities_append] at hok
    cases hpre : query_entities qOracle limit pre [] with
    | error e => rw [hpre] at hok; exact Except.noConfusion hok
    | ok m1 =>
      rw [hpre] at hok
      have hok2 : query_entities qOracle limit ((k, q) :: post) m1 = .ok m := hok
      obtain ⟨docs2, results, ho2, hn2, hrest⟩ :=
        query_entities_cons_ok qOracle limit k q post m1 m hok2
      have hdd : docs2 = docs := by
        rw [ho2] at hdocs
        injection hdocs
      have hlen : results.length = docs.length := by
        rw [← hdd]
        exact normalize_docs_length q.query docs2 results (hdd ▸ hn2)
      have hlook := query_entities_preserve qOracle limit k post
        (insertA m1 k results) m hpost hrest
      refine ⟨results, ?_, le_of_eq hlen⟩
      rw [hlook, lookupA_insertA, if_pos rfl]

/-- Record returned by the C6 witness oracle. -/
def C6doc : EntityRecord :=
  { emptyRecord with id := some "R1", score := some "1.5", label_ss := some ["R"] }

/-- Query oracle for the C6 witness: one record when asked with the
query string `"Q"` under cap 3, nothing otherwise. -/
def C6oracle : QueryOracle := fun s n =>
  if s = "Q" then (if n = 3 then .ok [C6doc] else .ok []) else .ok []

/-- Entity the query path emits for `C6doc` under query `"Q"`. -/
def C6ent : ResolvedEntity :=
  { id := "R1", name := "R", score := some "1.5", is_match := false, type := [], extra := [] }

/-- C6, witness: a query with `limit = 3` is sent under cap 3 and
yields one entity for its one returned record. -/
theorem C6_row_cap_witness :
    query_entities C6oracle 10000 [("k", { query := "Q", limit := some 3 })] []
      = .ok [("k", [C6ent])] ∧
    C6oracle "Q" (rowsFor { query := "Q", limit := some 3 } 10000) = .ok [C6doc] ∧
    ((∀ l, ({ query := "Q", limit := some 3 } : Query).limit = some l →
        rowsFor { query := "Q", limit := some 3 } 10000 = l) ∧
     (({ query := "Q", limit := some 3 } : Query).limit = none →
        rowsFor { query := "Q", limit := some 3 } 10000 = 10000) ∧
     ∃ results, lookupA [("k", [C6ent])] "k" = some results ∧
       results.length ≤ [C6doc].length) :=
  ⟨rfl, rfl,
   C6_row_cap C6oracle 10000 [] [] "k" { query := "Q", limit := some 3 }
     [("k", [C6ent])] [C6doc] (fun p hp => absurd hp (List.not_mem_nil p)) rfl rfl⟩

/-- C7: a transport or decode failure on the select request for one
query propagates out of the dispatch as that failure — it is not
swallowed, no retry happens, and no result map (hence no partial
result for that key) is produced. -/
theorem C7_query_failure_propagates (qOracle : QueryOracle) (tOracle : TagOracle)
    (text : Option String) (taggers : List String) (fs : List String) (limit : Nat)
    (pre post : List (String × Query)) (k : String) (q : Query) (e : LinkErr)
    (m1 : ResultMap)
    (hpre : query_entities qOracle limit pre [] = .ok m1)
    (hfail : qOracle q.query (rowsFor q limit) = .error e) :
    entities qOracle tOracle (some (pre ++ (k, q) :: post)) text limit taggers fs
      = .error e := by
  have hne : (pre ++ (k, q) :: post).isEmpty = false := by
    cases pre <;> rfl
  rw [entities_query_path qOracle tOracle _ text limit taggers fs hne]
  rw [query_entities_append, hpre]
  have hstep : query_entities qOracle limit ((k, q) :: post) m1 = .error e := by
    rw [query_entities_cons, hfail]
  show (match query_entities qOracle limit ((k, q) :: post) m1 with
    | Except.error err =>
      (Except.error err : Except LinkErr (ResultMap × List (String × LinkErr)))
    | Except.ok m => Except.ok (m, [])) = .error e
  rw [hstep]

/-- Failing query oracle for the C7 witness. -/
def C7oracle : QueryOracle := fun _ _ => .error (.transportError "solr down")

/-- Tag oracle for the C7 witness (unused on the query path). -/
def C7tOracle : TagOracle := fun _ _ => .ok []

/-- C7, witness: with one query and a failing index, the dispatch call
fails with the transport error. -/
theorem C7_query_failure_propagates_witness :
    query_entities C7oracle 10000 [] [] = .ok [] ∧
    C7oracle "Q" (rowsFor { query := "Q", limit := none } 10000)
      = .error (.transportError "solr down") ∧
    entities C7oracle C7tOracle (some ([] ++ ("k", { query := "Q", limit := none }) :: []))
      none 10000 [] [] = .error (.transportError "solr down") :=
  ⟨rfl, rfl,
   C7_query_failure_propagates C7oracle C7tOracle none [] [] 10000 [] [] "k"
     { query := "Q", limit := none } (.transportError "solr down") [] rfl rfl⟩

/-- With no text, every tagger call raises `AttributeError` before
touching the index, is caught and logged, and the map stays empty. -/
theorem run_taggers_no_text (tOracle : TagOracle) (limit : Nat) (fs : List String) :
    ∀ (taggers : List String) (log : List (String × LinkErr)),
    run_taggers tOracle none limit fs taggers [] log
      = ([], log ++ taggers.map (fun tg => (tg, LinkErr.attributeError))) := by
  intro taggers
  induction taggers with
  | nil => intro log; simp [run_taggers_nil]
  | cons tg rest ih =>
    intro log
    rw [run_taggers_cons]
    show run_taggers tOracle none limit fs rest [] (log ++ [(tg, .attributeError)])
      = ([], log ++ ((tg, LinkErr.attributeError) :: rest.map (fun t => (t, .attributeError))))
    rw [ih]
    simp

/-- C8: with falsy queries (absent or empty) and no text the dispatch
returns normally with an empty result map — no entity is extracted. -/
theorem C8_empty_input (qOracle : QueryOracle) (tOracle : TagOracle) (limit : Nat)
    (taggers : List String) (fs : List String)
    (queries : Option (List (String × Query)))
    (hq : (queries.getD []).isEmpty = true) :
    ∃ log, entities qOracle tOracle queries none limit taggers fs = .ok ([], log) := by
  refine ⟨taggers.map (fun tg => (tg, LinkErr.attributeError)), ?_⟩
  rw [entities_dict_path qOracle tOracle queries none limit taggers fs hq]
  rw [run_taggers_no_text]
  rfl

/-- C8, witness: no queries, no text, the default tagger list — the
call returns an empty map. -/
theorem C8_empty_input_witness :
    ((none : Option (List (String × Query))).getD []).isEmpty = true ∧
    (∃ log, entities C7oracle C7tOracle none none 10000 ["all_labels_ss_tag"] []
      = .ok ([], log)) :=
  ⟨rfl, C8_empty_input C7oracle C7tOracle 10000 ["all_labels_ss_tag"] [] none rfl⟩

/-- Record returned on the first tagger request in the C9 scenario. -/
def C9doc1 : EntityRecord :=
  { emptyRecord with id := some "E1", preferred_label_s := some "One" }

/-- Record returned on the second tagger request in the C9 scenario. -/
def C9doc2 : EntityRecord :=
  { emptyRecord with id := some "E2", preferred_label_s := some "Two" }

/-- Index behaviour at the time of the first call. -/
def C9oracleFirst : TagOracle := fun _ _ => .ok [C9doc1]

/-- Index behaviour at the time of the second call. -/
def C9oracleSecond : TagOracle := fun _ _ => .ok [C9doc2]

/-- C9: `dictionary_matcher`'s `normalized_entities` default argument
is one shared mutable dict (line 146), created once at function
definition and mutated in place by line 216 across calls that omit the
argument.  Two successive omitted-argument calls with identical
arguments therefore thread one accumulator: the second call starts
from the map the first call left behind (modelled by passing the first
call's returned map as the second call's accumulator), so its result
additionally contains the first call's entry `"E1"`, unlike a fresh
second call, which holds only its own entry `"E2"`. -/
theorem C9_shared_default_accumulator :
    lookupA (dictionary_matcher C9oracleSecond (some "text") 10000 "all_labels_ss_tag"
      (dictionary_matcher C9oracleFirst (some "text") 10000 "all_labels_ss_tag" [] []).1
      []).1 "E1" ≠ none ∧
    lookupA (dictionary_matcher C9oracleSecond (some "text") 10000 "all_labels_ss_tag"
      (dictionary_matcher C9oracleFirst (some "text") 10000 "all_labels_ss_tag" [] []).1
      []).1 "E2" ≠ none ∧
    lookupA (dictionary_matcher C9oracleSecond (some "text") 10000 "all_labels_ss_tag"
      [] []).1 "E1" = none := by
  refine ⟨?_, ?_, rfl⟩ <;> decide

/-- The errors `pick_label` can raise are lookup errors. -/
theorem label_step_error (l : Option String) (f : Option (List String)) (e : LinkErr)
    (h : label_step l f = .error e) : e = .indexError := by
  unfold label_step at h
  by_cases hf : pyFalsy l = true
  · rw [if_pos hf] at h
    cases f with
    | none => exact Except.noConfusion h
    | some vs =>
      cases vs with
      | nil =>
        have h2 : Except.error LinkErr.indexError = Except.error e := h
        injection h2 with h3
        exact h3.symm
      | cons x xs => exact Except.noConfusion h
  · rw [if_neg hf] at h
    exact Except.noConfusion h

theorem pick_label_error_isLookup (doc : EntityRecord) (e : LinkErr)
    (h : pick_label doc = .error e) : e.isLookup = true := by
  unfold pick_label at h
  cases h1 : label_step doc.preferred_label_s doc.skos_prefLabel_ss with
  | error e1 =>
    rw [h1] at h
    have h2 : Except.error e1 = Except.error e := h
    injection h2 with h3
    rw [← h3, label_step_error _ _ _ h1]
    rfl
  | ok l1 =>
    rw [h1] at h
    have hb : (match label_step l1 doc.label_ss with
      | Except.error err => (Except.error err : Except LinkErr String)
      | Except.ok l2 =>
        match label_step l2 doc.skos_altLabel_ss with
        | Except.error err => Except.error err
        | Except.ok l3 =>
          if pyFalsy l3 then
            match doc.id with
            | some i => Except.ok i
            | none => Except.error (.keyError "id")
          else Except.ok (l3.getD "")) = .error e := h
    cases h2 : label_step l1 doc.label_ss with
    | error e2 =>
      rw [h2] at hb
      have h4 : Except.error e2 = Except.error e := hb
      injection h4 with h5
      rw [← h5, label_step_error _ _ _ h2]
      rfl
    | ok l2 =>
      rw [h2] at hb
      have hc : (match label_step l2 doc.skos_altLabel_ss with
        | Except.error err => (Except.error err : Except LinkErr String)
        | Except.ok l3 =>
          if pyFalsy l3 then
            match doc.id with
            | some i => Except.ok i
            | none => Except.error (.keyError "id")
          else Except.ok (l3.getD "")) = .error e := hb
      cases h3 : label_step l2 doc.skos_altLabel_ss with
      | error e3 =>
        rw [h3] at hc
        have h4 : Except.error e3 = Except.error e := hc
        injection h4 with h5
        rw [← h5, label_step_error _ _ _ h3]
        rfl
      | ok l3 =>
        rw [h3] at hc
        have hd : (if pyFalsy l3 then
            match doc.id with
            | some i => (Except.ok i : Except LinkErr String)
            | none => Except.error (.keyError "id")
          else Except.ok (l3.getD "")) = .error e := hc
        by_cases hf : pyFalsy l3 = true
        · rw [if_pos hf] at hd
          cases hid : doc.id with
          | none =>
            rw [hid] at hd
            have h4 : Except.error (LinkErr.keyError "id") = Except.error e := hd
            injection h4 with h5
            rw [← h5]
            rfl
          | some i => rw [hid] at hd; exact Except.noConfusion hd
        · rw [if_neg hf] at hd
          exact Except.noConfusion hd

/-- C10: the query-path normalizer reads `id` and `score`
unconditionally, unlike the membership-guarded label and type fields:
a record lacking either field makes processing raise a lookup error
instead of emitting an entity, so every successfully normalized record
carries both. -/
theorem C10_unconditional_id_score (queryStr : String) (doc : EntityRecord)
    (h : doc.id = none ∨ doc.score = none) :
    ∃ e, normalize_query_doc queryStr doc = .error e ∧ e.isLookup = true := by
  unfold normalize_query_doc
  cases hp : pick_label doc with
  | error err => exact ⟨err, rfl, pick_label_error_isLookup doc err hp⟩
  | ok label =>
    rcases h with h | h
    · rw [h]
      exact ⟨.keyError "id", rfl, rfl⟩
    · cases hid : doc.id with
      | none => exact ⟨.keyError "id", rfl, rfl⟩
      | some i =>
        rw [h]
        exact ⟨.keyError "score", rfl, rfl⟩


/-- Record for the C10 witness: labels but no `score`. -/
def C10doc : EntityRecord :=
  { emptyRecord with id := some "X1", label_ss := some ["lbl"] }

/-- C10, witness: a record without `score` raises a lookup error on
the query path instead of yielding an entity. -/
theorem C10_unconditional_id_score_witness :
    (C10doc.id = none ∨ C10doc.score = none) ∧
    ∃ e, normalize_query_doc "q" C10doc = .error e ∧ e.isLookup = true :=
  ⟨Or.inr rfl, C10_unconditional_id_score "q" C10doc (Or.inr rfl)⟩
